import Mathlib

/-!
Verification of the schema cross-validator: the tool that matches an API
specification (operations with parameter lists) against source struct
definitions (fields with serialized name, omitempty flag, doc string and
type signature), classifying every per-field discrepancy, and reporting
an exit code.

The embedding follows the single main function of the tool:
  * field maps and error maps are Go `map[string]...` values, modelled as
    association lists with replace-on-insert semantics;
  * `processParam` embeds the per-parameter body of the matching loop;
  * `matchParams` embeds the whole loop followed by the extra-field sweep;
  * `reporter` embeds the final reporting loop and its exit codes;
  * `applyAPI` / `applyAPIs` embed the specification-driven driver loop
    (with the response-type override flag unset, its default).
-/

namespace ApiCheck

/-- A source struct field as the matcher sees it: declared type signature
(`field.Var.Type().String()`), the `,omitempty` marker of its json tag, and
the `doc` tag string. -/
structure FieldInfo where
  typeSignature : String
  omitEmpty : Bool
  doc : String
deriving DecidableEq, Repr

/-- One parameter of the API specification: name, raw type-category string,
required flag and description. -/
structure ParamSpec where
  name : String
  ptype : String
  required : Bool
  description : String
deriving DecidableEq, Repr

/-- The classified validation errors.  Each constructor carries exactly the
data the corresponding `fmt.Errorf` call interpolates. -/
inductive VError where
  | missingField (name ptype : String) (required : Bool) (description : String)
  | missingDoc (description : String)
  | wrongDoc (want got : String)
  | wrongOmitEmpty (name : String) (required : Bool)
  | unknownType (ptype sig : String)
  | typeMismatch (expected actual : String)
  | extraField
deriving DecidableEq, Repr

/-- Is this error the `missing field` variant? -/
def VError.isMissingField : VError → Bool
  | .missingField _ _ _ _ => true
  | _ => false

abbrev Fields := List (String × FieldInfo)
abbrev ErrMap := List (String × VError)

/-- Go map lookup `m[k]` on an association list. -/
def lookupK (k : String) : List (String × α) → Option α
  | [] => none
  | kv :: rest => if kv.1 = k then some kv.2 else lookupK k rest

/-- Go `delete(m, k)` on an association list. -/
def eraseK (k : String) : List (String × α) → List (String × α)
  | [] => []
  | kv :: rest => if kv.1 = k then eraseK k rest else kv :: eraseK k rest

/-- Go map assignment `m[k] = v`: any previous binding of `k` is replaced. -/
def insertE (m : ErrMap) (k : String) (v : VError) : ErrMap :=
  eraseK k m ++ [(k, v)]

/-- The matcher state: the not-yet-consumed fields of the struct and the
error map accumulated so far (`command.fields` and `command.errors`). -/
structure MatchState where
  fields : Fields
  errors : ErrMap
deriving DecidableEq, Repr

/-- The type-category strings the switch statement recognises; any other
category string falls into the `default` branch (`Unknown type`). -/
def isKnownType (t : String) : Bool :=
  t = "short" || t = "integer" || t = "long" || t = "boolean" || t = "string" ||
  t = "uuid" || t = "date" || t = "tzdate" || t = "list" || t = "map" || t = "set"

/-- The `expected` string computed by the type switch: empty when the
signature is acceptable for the category, otherwise the expected signature
reported in the mismatch message.  `string`, `uuid`, `date` and `map` have
empty case bodies in the switch and so accept anything. -/
def expectedFor (t sig : String) : String :=
  if t = "short" then (if sig = "int16" then "" else "int16")
  else if t = "integer" then (if sig = "int" then "" else "int")
  else if t = "long" then (if sig = "int64" then "" else "int64")
  else if t = "boolean" then (if sig = "bool" ∨ sig = "*bool" then "" else "bool")
  else if t = "string" then ""
  else if t = "uuid" then ""
  else if t = "date" then ""
  else if t = "tzdate" then (if sig = "string" then "" else "string")
  else if t = "list" then (if sig.startsWith "[]" then "" else "[]string")
  else if t = "map" then ""
  else if t = "set" then (if sig.startsWith "[]" then "" else "array")
  else ""

/-- The documentation comparison of the matcher: empty documentation yields
the `missing doc` error, non-empty documentation differing from the
description yields `wrong doc`, matching documentation yields nothing. -/
def docError (doc desc : String) : Option VError :=
  if doc ≠ desc then
    if doc = "" then some (VError.missingDoc desc) else some (VError.wrongDoc desc doc)
  else none

/-- The documentation check of the matcher, recording its error (if any)
under the parameter name. -/
def docStep (es : ErrMap) (p : ParamSpec) (f : FieldInfo) : ErrMap :=
  match docError f.doc p.description with
  | some e => insertE es p.name e
  | none => es

/-- The type switch of the matcher: an unrecognised category string records
`Unknown type` in the default branch, and a non-empty `expected` string
then records the type mismatch (in the default branch `expected` stays
empty, so the unknown-category error survives). -/
def typeStep (es : ErrMap) (p : ParamSpec) (f : FieldInfo) : ErrMap :=
  let es2 :=
    if isKnownType p.ptype then es
    else insertE es p.name (VError.unknownType p.ptype f.typeSignature)
  if expectedFor p.ptype f.typeSignature = "" then es2
  else insertE es2 p.name (VError.typeMismatch (expectedFor p.ptype f.typeSignature) f.typeSignature)

/-- Error-map updates performed for one parameter whose field was found:
the documentation check, then the omitempty check (which `continue`s past
the type switch on mismatch), then the type switch. -/
def matchedErrors (es : ErrMap) (p : ParamSpec) (f : FieldInfo) : ErrMap :=
  if p.required = f.omitEmpty then
    insertE (docStep es p f) p.name (VError.wrongOmitEmpty p.name p.required)
  else typeStep (docStep es p f) p f

/-- The body of the per-parameter loop: a parameter with no matching field
records `missing field` and moves on; a matched field is consumed
(`delete(command.fields, p.Name)`) and classified by `matchedErrors`. -/
def processParam (st : MatchState) (p : ParamSpec) : MatchState :=
  match lookupK p.name st.fields with
  | none =>
    { st with
      errors := insertE st.errors p.name (VError.missingField p.name p.ptype p.required p.description) }
  | some f =>
    { fields := eraseK p.name st.fields, errors := matchedErrors st.errors p f }

/-- The parameter loop, starting from a freshly built field map and an
empty error map. -/
def phase1 (ps : List ParamSpec) (f0 : Fields) : MatchState :=
  ps.foldl processParam { fields := f0, errors := [] }

/-- The final sweep: every field still unconsumed yields `Extra field
found` under its serialized name. -/
def addExtras (st : MatchState) : MatchState :=
  { st with
    errors := st.fields.foldl (fun es kv => insertE es kv.1 VError.extraField) st.errors }

/-- One whole match run: process every parameter, then flag the leftover
fields as extras. -/
def matchParams (ps : List ParamSpec) (f0 : Fields) : MatchState :=
  addExtras (phase1 ps f0)

/-- ASCII lowercasing of one character (the command and type names this
tool compares are ASCII identifiers). -/
def lowerChar (c : Char) : Char :=
  if 65 ≤ c.toNat ∧ c.toNat ≤ 90 then Char.ofNat (c.toNat + 32) else c

/-- `strings.ToLower` on the ASCII names this tool handles. -/
def lowerStr (s : String) : String :=
  ⟨s.data.map lowerChar⟩

/-- One entry of the `commands` registry: display name, the field map
built from the struct tags, and the error map — `none` until some
specification operation matches this entry (`command.errors` stays a nil
map in that case). -/
structure CommandR where
  displayName : String
  fields : Fields
  errors : Option ErrMap
deriving DecidableEq, Repr

/-- `len(c.errors)`: the length of a nil map is 0. -/
def errCount : Option ErrMap → Nat
  | none => 0
  | some m => m.length

/-- How the final reporting loop terminates. -/
inductive Outcome where
  | summaryExit
  | detailExit (n : Nat)
  | notFound
deriving DecidableEq, Repr

/-- The reporting loop: with no command selected it prints the summary and
falls off `main` (exit status 0); with a selected command it exits with
`os.Exit(len(c.errors))` at the matching entry, or prints `not found` and
exits 1 when no entry matches. -/
def reporter (cmd : String) (cmds : List (String × CommandR)) : Outcome :=
  if cmd = "" then Outcome.summaryExit
  else
    match lookupK (lowerStr cmd) cmds with
    | some c => Outcome.detailExit (errCount c.errors)
    | none => Outcome.notFound

/-- The process exit status of each outcome. -/
def exitCode : Outcome → Nat
  | Outcome.summaryExit => 0
  | Outcome.detailExit n => n
  | Outcome.notFound => 1

/-- One specification operation: name, async flag, request and response
parameter lists. -/
structure APIEntry where
  name : String
  isAsync : Bool
  params : List ParamSpec
  response : List ParamSpec
deriving DecidableEq, Repr

/-- One iteration of the driver loop (with the response-type override flag
unset, its default): when the lower-cased operation name is a key of the
registry, that entry gets a freshly computed error map; otherwise the
operation is skipped and the registry is unchanged. -/
def applyAPI (cmds : List (String × CommandR)) (a : APIEntry) : List (String × CommandR) :=
  cmds.map fun kv =>
    if kv.1 = lowerStr a.name then
      (kv.1, { kv.2 with errors := some (matchParams a.params kv.2.fields).errors })
    else kv

/-- The whole driver loop over the specification. -/
def applyAPIs (apis : List APIEntry) (cmds : List (String × CommandR)) : List (String × CommandR) :=
  apis.foldl applyAPI cmds

/-- The whole tool after loading: drive the matcher from the
specification, then report. -/
def run (cmd : String) (apis : List APIEntry) (cmds : List (String × CommandR)) : Outcome :=
  reporter cmd (applyAPIs apis cmds)

/-! ### Association-list map laws -/

theorem lookupK_eraseK_self {α : Type} (k : String) (l : List (String × α)) :
    lookupK k (eraseK k l) = none := by
  induction l with
  | nil => rfl
  | cons kv rest ih =>
    by_cases h : kv.1 = k
    · simpa [eraseK, h] using ih
    · simp [eraseK, h, lookupK, ih]

theorem lookupK_eraseK_other {α : Type} {k n : String} (h : n ≠ k) (l : List (String × α)) :
    lookupK n (eraseK k l) = lookupK n l := by
  induction l with
  | nil => rfl
  | cons kv rest ih =>
    by_cases hk : kv.1 = k
    · simp [eraseK, hk, lookupK, Ne.symm h, ih]
    · simp [eraseK, hk, lookupK, ih]

theorem lookupK_append_left {α : Type} {k : String} {l1 l2 : List (String × α)} {v : α}
    (h : lookupK k l1 = some v) : lookupK k (l1 ++ l2) = some v := by
  induction l1 with
  | nil => simp [lookupK] at h
  | cons kv rest ih =>
    by_cases hk : kv.1 = k
    · simp [lookupK, hk] at h ⊢; exact h
    · simp [lookupK, hk] at h ⊢; exact ih h

theorem lookupK_append_right {α : Type} {k : String} {l1 : List (String × α)}
    (l2 : List (String × α)) (h : lookupK k l1 = none) :
    lookupK k (l1 ++ l2) = lookupK k l2 := by
  induction l1 with
  | nil => rfl
  | cons kv rest ih =>
    by_cases hk : kv.1 = k
    · simp [lookupK, hk] at h
    · simp [lookupK, hk] at h ⊢; exact ih h

theorem lookupK_eq_none_iff {α : Type} {k : String} {l : List (String × α)} :
    lookupK k l = none ↔ ∀ kv ∈ l, kv.1 ≠ k := by
  induction l with
  | nil => simp [lookupK]
  | cons kv rest ih =>
    by_cases hk : kv.1 = k
    · simp [lookupK, hk]
    · simp [lookupK, hk, ih]

theorem lookupK_insertE_self (m : ErrMap) (k : String) (v : VError) :
    lookupK k (insertE m k v) = some v := by
  unfold insertE
  rw [lookupK_append_right _ (lookupK_eraseK_self k m)]
  simp [lookupK]

theorem lookupK_insertE_other {n k : String} (m : ErrMap) (v : VError) (h : n ≠ k) :
    lookupK n (insertE m k v) = lookupK n m := by
  unfold insertE
  rw [← lookupK_eraseK_other h m]
  cases hc : lookupK n (eraseK k m) with
  | none => rw [lookupK_append_right _ hc]; simp [lookupK, Ne.symm h, hc]
  | some w => exact lookupK_append_left hc

/-! ### Per-parameter step laws -/

theorem docStep_lookup_other {n : String} (es : ErrMap) (p : ParamSpec) (f : FieldInfo)
    (h : n ≠ p.name) : lookupK n (docStep es p f) = lookupK n es := by
  unfold docStep
  cases docError f.doc p.description with
  | none => rfl
  | some e => exact lookupK_insertE_other es e h

theorem typeStep_lookup_other {n : String} (es : ErrMap) (p : ParamSpec) (f : FieldInfo)
    (h : n ≠ p.name) : lookupK n (typeStep es p f) = lookupK n es := by
  unfold typeStep
  by_cases h1 : isKnownType p.ptype <;>
    by_cases h2 : expectedFor p.ptype f.typeSignature = "" <;>
      simp [h1, h2, lookupK_insertE_other _ _ h]

theorem matchedErrors_lookup_other {n : String} (es : ErrMap) (p : ParamSpec) (f : FieldInfo)
    (h : n ≠ p.name) : lookupK n (matchedErrors es p f) = lookupK n es := by
  unfold matchedErrors
  by_cases h1 : p.required = f.omitEmpty
  · simp [h1, lookupK_insertE_other _ _ h, docStep_lookup_other es p f h]
  · simp [h1, typeStep_lookup_other _ p f h, docStep_lookup_other es p f h]

theorem processParam_errors_other {n : String} (st : MatchState) (p : ParamSpec)
    (h : n ≠ p.name) : lookupK n (processParam st p).errors = lookupK n st.errors := by
  cases hl : lookupK p.name st.fields with
  | none => simp [processParam, hl, lookupK_insertE_other _ _ h]
  | some f => simp [processParam, hl, matchedErrors_lookup_other _ p f h]

theorem processParam_fields_other {n : String} (st : MatchState) (p : ParamSpec)
    (h : n ≠ p.name) : lookupK n (processParam st p).fields = lookupK n st.fields := by
  cases hl : lookupK p.name st.fields with
  | none => simp [processParam, hl]
  | some f => simp [processParam, hl, lookupK_eraseK_other h]

theorem processParam_fields_self (st : MatchState) (p : ParamSpec) :
    lookupK p.name (processParam st p).fields = none := by
  cases hl : lookupK p.name st.fields with
  | none => simp [processParam, hl]
  | some f => simp [processParam, hl, lookupK_eraseK_self]

theorem processParam_fields_none {n : String} (st : MatchState) (p : ParamSpec)
    (h : lookupK n st.fields = none) : lookupK n (processParam st p).fields = none := by
  by_cases hn : n = p.name
  · subst hn; exact processParam_fields_self st p
  · rw [processParam_fields_other st p hn]; exact h

/-! ### Loop laws -/

theorem foldl_fields_none {n : String} (l : List ParamSpec) (st : MatchState)
    (h : lookupK n st.fields = none) :
    lookupK n (l.foldl processParam st).fields = none := by
  induction l generalizing st with
  | nil => exact h
  | cons q rest ih => exact ih _ (processParam_fields_none st q h)

theorem foldl_errors_preserved {n : String} (l : List ParamSpec) (st : MatchState)
    (hl : ∀ q ∈ l, q.name ≠ n) :
    lookupK n (l.foldl processParam st).errors = lookupK n st.errors := by
  induction l generalizing st with
  | nil => rfl
  | cons q rest ih =>
    have hq : n ≠ q.name := fun he => (hl q (by simp)) he.symm
    rw [List.foldl_cons, ih _ (fun r hr => hl r (by simp [hr])),
      processParam_errors_other st q hq]

theorem extras_fold_other {n : String} (l : Fields) (es : ErrMap)
    (h : ∀ kv ∈ l, kv.1 ≠ n) :
    lookupK n (l.foldl (fun es kv => insertE es kv.1 VError.extraField) es) = lookupK n es := by
  induction l generalizing es with
  | nil => rfl
  | cons kv rest ih =>
    rw [List.foldl_cons, ih _ (fun r hr => h r (by simp [hr])),
      lookupK_insertE_other _ _ (fun he => (h kv (by simp)) he.symm)]

theorem addExtras_errors_no_field {n : String} (st : MatchState)
    (h : lookupK n st.fields = none) :
    lookupK n (addExtras st).errors = lookupK n st.errors := by
  simpa [addExtras] using extras_fold_other st.fields st.errors (lookupK_eq_none_iff.mp h)

/-! ### What the matched branch records under the parameter name -/

theorem expectedFor_unknown {t : String} (h : isKnownType t = false) (sig : String) :
    expectedFor t sig = "" := by
  simp only [isKnownType, Bool.or_eq_false_iff, decide_eq_false_iff_not] at h
  obtain ⟨⟨⟨⟨⟨⟨⟨⟨⟨⟨h1, h2⟩, h3⟩, h4⟩, h5⟩, h6⟩, h7⟩, h8⟩, h9⟩, h10⟩, h11⟩ := h
  simp [expectedFor, h1, h2, h3, h4, h5, h6, h7, h8, h9, h10, h11]

theorem matchedErrors_self_omit (es : ErrMap) (p : ParamSpec) (f : FieldInfo)
    (h : p.required = f.omitEmpty) :
    lookupK p.name (matchedErrors es p f)
      = some (VError.wrongOmitEmpty p.name p.required) := by
  unfold matchedErrors
  simp [h, lookupK_insertE_self]

theorem matchedErrors_self_unknown (es : ErrMap) (p : ParamSpec) (f : FieldInfo)
    (hopt : ¬p.required = f.omitEmpty) (hunk : isKnownType p.ptype = false) :
    lookupK p.name (matchedErrors es p f)
      = some (VError.unknownType p.ptype f.typeSignature) := by
  unfold matchedErrors typeStep
  simp [hopt, hunk, expectedFor_unknown hunk, lookupK_insertE_self]

theorem matchedErrors_self_mismatch (es : ErrMap) (p : ParamSpec) (f : FieldInfo)
    (hopt : ¬p.required = f.omitEmpty) (hknown : isKnownType p.ptype = true)
    (hexp : expectedFor p.ptype f.typeSignature ≠ "") :
    lookupK p.name (matchedErrors es p f)
      = some (VError.typeMismatch (expectedFor p.ptype f.typeSignature) f.typeSignature) := by
  unfold matchedErrors typeStep
  simp [hopt, hknown, hexp, lookupK_insertE_self]

theorem processParam_matched (st : MatchState) (p : ParamSpec) (f : FieldInfo)
    (h : lookupK p.name st.fields = some f) :
    processParam st p
      = { fields := eraseK p.name st.fields, errors := matchedErrors st.errors p f } := by
  simp [processParam, h]

/-- Does an optional error hold the `missing field` variant? -/
def optIsMissingField : Option VError → Bool
  | some e => e.isMissingField
  | none => false

theorem foldl_missing_invariant {n : String} (l : List ParamSpec) (st : MatchState)
    (hf : lookupK n st.fields = none)
    (he : optIsMissingField (lookupK n st.errors) = true) :
    lookupK n (l.foldl processParam st).fields = none ∧
      optIsMissingField (lookupK n (l.foldl processParam st).errors) = true := by
  induction l generalizing st with
  | nil => exact ⟨hf, he⟩
  | cons q rest ih =>
    rw [List.foldl_cons]
    by_cases hq : q.name = n
    · subst hq
      have h1 : (processParam st q).errors
          = insertE st.errors q.name
              (VError.missingField q.name q.ptype q.required q.description) := by
        simp [processParam, hf]
      have h2 : (processParam st q).fields = st.fields := by
        simp [processParam, hf]
      exact ih _ (by rw [h2]; exact hf)
        (by rw [h1, lookupK_insertE_self]; rfl)
    · exact ih _ (processParam_fields_none st q hf)
        (by rwa [processParam_errors_other st q fun h2 => hq h2.symm])

/-! ### Key uniqueness -/

theorem eraseK_sublist {α : Type} (k : String) (l : List (String × α)) :
    List.Sublist (eraseK k l) l := by
  induction l with
  | nil => simp [eraseK]
  | cons kv rest ih =>
    by_cases hk : kv.1 = k
    · simp only [eraseK, if_pos hk]; exact List.Sublist.cons _ ih
    · simp only [eraseK, if_neg hk]; exact List.Sublist.cons₂ _ ih

theorem keys_nodup_eraseK {α : Type} {k : String} {l : List (String × α)}
    (h : (l.map Prod.fst).Nodup) : ((eraseK k l).map Prod.fst).Nodup :=
  List.Nodup.sublist (List.Sublist.map Prod.fst (eraseK_sublist k l)) h

theorem not_mem_keys_eraseK {α : Type} (k : String) (l : List (String × α)) :
    k ∉ (eraseK k l).map Prod.fst := by
  intro hmem
  rcases List.mem_map.mp hmem with ⟨kv, hkv, hfst⟩
  exact lookupK_eq_none_iff.mp (lookupK_eraseK_self k l) kv hkv hfst

theorem keys_nodup_insertE {m : ErrMap} {k : String} {v : VError}
    (h : (m.map Prod.fst).Nodup) : ((insertE m k v).map Prod.fst).Nodup := by
  unfold insertE
  rw [List.map_append]
  refine List.Nodup.append (keys_nodup_eraseK h) (by simp) ?_
  intro x hx hx2
  simp only [List.map_cons, List.map_nil, List.mem_singleton] at hx2
  rw [hx2] at hx
  exact not_mem_keys_eraseK k m hx

theorem keys_nodup_docStep {es : ErrMap} {p : ParamSpec} {f : FieldInfo}
    (h : (es.map Prod.fst).Nodup) : ((docStep es p f).map Prod.fst).Nodup := by
  unfold docStep
  cases docError f.doc p.description with
  | none => exact h
  | some e => exact keys_nodup_insertE h

theorem keys_nodup_typeStep {es : ErrMap} {p : ParamSpec} {f : FieldInfo}
    (h : (es.map Prod.fst).Nodup) : ((typeStep es p f).map Prod.fst).Nodup := by
  unfold typeStep
  by_cases h1 : isKnownType p.ptype <;>
    by_cases h2 : expectedFor p.ptype f.typeSignature = "" <;>
      simp [h1, h2, keys_nodup_insertE, h]

theorem keys_nodup_matchedErrors {es : ErrMap} {p : ParamSpec} {f : FieldInfo}
    (h : (es.map Prod.fst).Nodup) : ((matchedErrors es p f).map Prod.fst).Nodup := by
  unfold matchedErrors
  by_cases h1 : p.required = f.omitEmpty
  · simp only [if_pos h1]
    exact keys_nodup_insertE (keys_nodup_docStep h)
  · simp only [if_neg h1]
    exact keys_nodup_typeStep (keys_nodup_docStep h)

theorem keys_nodup_processParam_errors {st : MatchState} (p : ParamSpec)
    (h : (st.errors.map Prod.fst).Nodup) :
    ((processParam st p).errors.map Prod.fst).Nodup := by
  cases hl : lookupK p.name st.fields with
  | none => simpa [processParam, hl] using keys_nodup_insertE h
  | some f => simpa [processParam, hl] using keys_nodup_matchedErrors h

theorem keys_nodup_processParam_fields {st : MatchState} (p : ParamSpec)
    (h : (st.fields.map Prod.fst).Nodup) :
    ((processParam st p).fields.map Prod.fst).Nodup := by
  cases hl : lookupK p.name st.fields with
  | none => simpa [processParam, hl] using h
  | some f => simpa [processParam, hl] using keys_nodup_eraseK h

theorem keys_nodup_foldl_errors (l : List ParamSpec) (st : MatchState)
    (he : (st.errors.map Prod.fst).Nodup) :
    ((l.foldl processParam st).errors.map Prod.fst).Nodup := by
  induction l generalizing st with
  | nil => exact he
  | cons q rest ih => exact ih _ (keys_nodup_processParam_errors q he)

theorem keys_nodup_foldl_fields (l : List ParamSpec) (st : MatchState)
    (hf : (st.fields.map Prod.fst).Nodup) :
    ((l.foldl processParam st).fields.map Prod.fst).Nodup := by
  induction l generalizing st with
  | nil => exact hf
  | cons q rest ih => exact ih _ (keys_nodup_processParam_fields q hf)

theorem keys_nodup_extras_fold {l : Fields} {es : ErrMap}
    (h : (es.map Prod.fst).Nodup) :
    ((l.foldl (fun es kv => insertE es kv.1 VError.extraField) es).map Prod.fst).Nodup := by
  induction l generalizing es with
  | nil => exact h
  | cons kv rest ih => exact ih (keys_nodup_insertE h)

theorem matchParams_keys_nodup (ps : List ParamSpec) (f0 : Fields) :
    ((matchParams ps f0).errors.map Prod.fst).Nodup := by
  have h1 := keys_nodup_foldl_errors ps { fields := f0, errors := [] } (by simp)
  simpa [matchParams, phase1, addExtras] using keys_nodup_extras_fold h1

theorem extras_fold_mem {l : Fields} {es : ErrMap} {k : String} {fi : FieldInfo}
    (hnd : (l.map Prod.fst).Nodup) (hmem : (k, fi) ∈ l) :
    lookupK k (l.foldl (fun es kv => insertE es kv.1 VError.extraField) es)
      = some VError.extraField := by
  induction l generalizing es with
  | nil => simp at hmem
  | cons kv rest ih =>
    rw [List.foldl_cons]
    rcases List.mem_cons.mp hmem with h | h
    · have hk1 : kv.1 = k := by rw [← h]
      have hhead : kv.1 ∉ rest.map Prod.fst := (List.nodup_cons.mp (by simpa using hnd)).1
      have hrest : ∀ r ∈ rest, r.1 ≠ k := by
        intro r hr he2
        exact hhead (List.mem_map.mpr ⟨r, hr, by rw [he2, hk1]⟩)
      rw [extras_fold_other rest _ hrest, hk1, lookupK_insertE_self]
    · exact ih (List.nodup_cons.mp (by simpa using hnd)).2 h

theorem addExtras_mem (st : MatchState) {k : String} {fi : FieldInfo}
    (hnd : (st.fields.map Prod.fst).Nodup) (hmem : (k, fi) ∈ st.fields) :
    lookupK k (addExtras st).errors = some VError.extraField := by
  simpa [addExtras] using extras_fold_mem hnd hmem

/-! ### Driver laws -/

theorem lookupK_applyAPI_other {k : String} (cmds : List (String × CommandR)) (a : APIEntry)
    (h : k ≠ lowerStr a.name) : lookupK k (applyAPI cmds a) = lookupK k cmds := by
  induction cmds with
  | nil => rfl
  | cons kv rest ih =>
    by_cases hk : kv.1 = k
    · have hne : ¬kv.1 = lowerStr a.name := by rw [hk]; exact h
      simp [applyAPI, lookupK, hk, hne, h]
    · by_cases hm : kv.1 = lowerStr a.name
      · simpa [applyAPI, lookupK, hk, hm, Ne.symm h] using ih
      · simpa [applyAPI, lookupK, hk, hm] using ih

theorem lookupK_applyAPIs {k : String} (apis : List APIEntry) (cmds : List (String × CommandR))
    (h : ∀ a ∈ apis, lowerStr a.name ≠ k) :
    lookupK k (applyAPIs apis cmds) = lookupK k cmds := by
  induction apis generalizing cmds with
  | nil => rfl
  | cons a rest ih =>
    have hstep : applyAPIs (a :: rest) cmds = applyAPIs rest (applyAPI cmds a) := rfl
    rw [hstep, ih _ fun b hb => h b (by simp [hb]),
      lookupK_applyAPI_other cmds a fun h2 => (h a (by simp)) h2.symm]

/-- Whatever a parameter's own processing step records under its name
survives to the final result, as long as no later parameter reuses the
name: later steps only touch their own names, and the extras sweep only
touches names still present in the field map, which the step consumed. -/
theorem matchParams_split (ps1 ps2 : List ParamSpec) (p : ParamSpec) (f0 : Fields)
    (e : VError)
    (hself : lookupK p.name (processParam (phase1 ps1 f0) p).errors = some e)
    (hlater : ∀ q ∈ ps2, q.name ≠ p.name) :
    lookupK p.name (matchParams (ps1 ++ p :: ps2) f0).errors = some e := by
  have hfields : lookupK p.name (processParam (phase1 ps1 f0) p).fields = none :=
    processParam_fields_self _ p
  have hphase : phase1 (ps1 ++ p :: ps2) f0
      = ps2.foldl processParam (processParam (phase1 ps1 f0) p) := by
    simp [phase1, List.foldl_append]
  have h2 : lookupK p.name (phase1 (ps1 ++ p :: ps2) f0).errors = some e := by
    rw [hphase, foldl_errors_preserved ps2 _ hlater, hself]
  have h3 : lookupK p.name (phase1 (ps1 ++ p :: ps2) f0).fields = none := by
    rw [hphase]; exact foldl_fields_none ps2 _ hfields
  unfold matchParams
  rw [addExtras_errors_no_field _ h3]
  exact h2

/-! ### Claim theorems -/

/-- Claim C1, counterexample: a matched field whose parameter has the
unrecognised category `weirdtype` does not always get the unknown-category
error — when the field also violates the optionality rule, the omitempty
check records its error and `continue`s past the type switch, so the
optionality error survives instead. -/
theorem c1_counterexample :
    lookupK "size" (matchParams
      [{ name := "size", ptype := "weirdtype", required := true, description := "d" }]
      [("size", { typeSignature := "string", omitEmpty := true, doc := "d" })]).errors
      = some (VError.wrongOmitEmpty "size" true)
    ∧ VError.wrongOmitEmpty "size" true ≠ VError.unknownType "weirdtype" "string" :=
  ⟨rfl, by decide⟩

/-- Claim C1, amended: for a matched field whose parameter category is
unrecognised, provided the optionality check passes, the matcher records
the unknown-category error for that field, overriding any documentation
error recorded earlier for it. -/
theorem c1_unknown_category (ps1 ps2 : List ParamSpec) (p : ParamSpec) (f0 : Fields)
    (f : FieldInfo)
    (hmatch : lookupK p.name (phase1 ps1 f0).fields = some f)
    (hunk : isKnownType p.ptype = false)
    (hopt : p.required ≠ f.omitEmpty)
    (hlater : ∀ q ∈ ps2, q.name ≠ p.name) :
    lookupK p.name (matchParams (ps1 ++ p :: ps2) f0).errors
      = some (VError.unknownType p.ptype f.typeSignature) := by
  refine matchParams_split ps1 ps2 p f0 _ ?_ hlater
  rw [processParam_matched _ p f hmatch]
  exact matchedErrors_self_unknown _ p f hopt hunk

/-- Concrete instance of the amended C1: the unknown-category error
overrides the documentation mismatch recorded just before it. -/
theorem c1_unknown_category_witness :
    lookupK "size" (matchParams
      [{ name := "size", ptype := "weirdtype", required := true, description := "d" }]
      [("size", { typeSignature := "string", omitEmpty := false, doc := "x" })]).errors
      = some (VError.unknownType "weirdtype" "string") := by
  have h := c1_unknown_category [] []
    { name := "size", ptype := "weirdtype", required := true, description := "d" }
    [("size", { typeSignature := "string", omitEmpty := false, doc := "x" })]
    { typeSignature := "string", omitEmpty := false, doc := "x" }
    rfl rfl (by decide) (by simp)
  simpa using h

/-- Claim C2, counterexample: an empty documentation string together with
an empty description records no documentation error at all, not the
missing-documentation error the claim requires. -/
theorem c2_counterexample :
    docError "" "" = none ∧ docError "" "" ≠ some (VError.missingDoc "") :=
  ⟨rfl, by decide⟩

/-- Claim C2, amended: the documentation check records the
missing-documentation error when the documentation is empty and differs
from the description (hence the description is non-empty), the
wrong-documentation error when it is non-empty and differs, and nothing
when they agree. -/
theorem c2_doc_law (doc desc : String) :
    (doc = "" → desc ≠ "" → docError doc desc = some (VError.missingDoc desc)) ∧
    (doc ≠ "" → doc ≠ desc → docError doc desc = some (VError.wrongDoc desc doc)) ∧
    (doc = desc → docError doc desc = none) := by
  refine ⟨?_, ?_, ?_⟩
  · intro h1 h2
    subst h1
    simp [docError, Ne.symm h2]
  · intro h1 h2
    simp [docError, h1, h2]
  · intro h
    subst h
    simp [docError]

/-- Concrete instances of the three branches of the amended C2. -/
theorem c2_doc_law_witness :
    docError "" "d" = some (VError.missingDoc "d") ∧
    docError "x" "d" = some (VError.wrongDoc "d" "x") ∧
    docError "d" "d" = none :=
  ⟨(c2_doc_law "" "d").1 rfl (by decide),
    (c2_doc_law "x" "d").2.1 (by decide) (by decide),
    (c2_doc_law "d" "d").2.2 rfl⟩

/-- Claim C3: a matched pair violating the optionality rule (the required
flag equal to the omitempty marker, in either direction) records the
optionality error and skips the type check, so the surviving error for
that field is the optionality error — which is never a type mismatch. -/
theorem c3_optionality (ps1 ps2 : List ParamSpec) (p : ParamSpec) (f0 : Fields)
    (f : FieldInfo)
    (hmatch : lookupK p.name (phase1 ps1 f0).fields = some f)
    (hopt : p.required = f.omitEmpty)
    (hlater : ∀ q ∈ ps2, q.name ≠ p.name) :
    lookupK p.name (matchParams (ps1 ++ p :: ps2) f0).errors
      = some (VError.wrongOmitEmpty p.name p.required)
    ∧ ∀ x y, VError.wrongOmitEmpty p.name p.required ≠ VError.typeMismatch x y := by
  refine ⟨?_, fun x y h => VError.noConfusion h⟩
  refine matchParams_split ps1 ps2 p f0 _ ?_ hlater
  rw [processParam_matched _ p f hmatch]
  exact matchedErrors_self_omit _ p f hopt

/-- Concrete instance of C3: required parameter against an omitempty
field with the right type still reports only the optionality error. -/
theorem c3_optionality_witness :
    lookupK "a" (matchParams
      [{ name := "a", ptype := "short", required := true, description := "d" }]
      [("a", { typeSignature := "int16", omitEmpty := true, doc := "d" })]).errors
      = some (VError.wrongOmitEmpty "a" true) := by
  have h := c3_optionality [] []
    { name := "a", ptype := "short", required := true, description := "d" }
    [("a", { typeSignature := "int16", omitEmpty := true, doc := "d" })]
    { typeSignature := "int16", omitEmpty := true, doc := "d" }
    rfl rfl (by simp)
  simpa using h.1

/-- Claim C4: the result mapping holds at most one error per field name —
its keys are pairwise distinct — and an assignment to a field name
replaces whatever was recorded there before, so the last error assigned
survives. -/
theorem c4_one_error_per_field (ps : List ParamSpec) (f0 : Fields) :
    ((matchParams ps f0).errors.map Prod.fst).Nodup ∧
      ∀ (m : ErrMap) (k : String) (v : VError), lookupK k (insertE m k v) = some v :=
  ⟨matchParams_keys_nodup ps f0, fun m k v => lookupK_insertE_self m k v⟩

/-- Claim C5: a parameter whose name has no field in the entity ends up
with exactly the missing-field error: the surviving entry for that name
is the missing-field variant, so no other check contributed a result for
it. -/
theorem c5_missing_field (ps : List ParamSpec) (f0 : Fields) (p : ParamSpec)
    (hp : p ∈ ps) (habs : lookupK p.name f0 = none) :
    ∃ e, lookupK p.name (matchParams ps f0).errors = some e ∧
      e.isMissingField = true := by
  obtain ⟨l1, l2, rfl⟩ := List.append_of_mem hp
  have h1 : lookupK p.name (phase1 l1 f0).fields = none := by
    have h0 : lookupK p.name ({ fields := f0, errors := [] } : MatchState).fields = none := habs
    exact foldl_fields_none l1 _ h0
  have h2 : (processParam (phase1 l1 f0) p).errors
      = insertE (phase1 l1 f0).errors p.name
          (VError.missingField p.name p.ptype p.required p.description) := by
    simp [processParam, h1]
  have h3 : (processParam (phase1 l1 f0) p).fields = (phase1 l1 f0).fields := by
    simp [processParam, h1]
  have h4 := foldl_missing_invariant l2 (processParam (phase1 l1 f0) p)
    (by rw [h3]; exact h1)
    (by rw [h2, lookupK_insertE_self]; rfl)
  have hphase : phase1 (l1 ++ p :: l2) f0
      = l2.foldl processParam (processParam (phase1 l1 f0) p) := by
    simp [phase1, List.foldl_append]
  have h5 : optIsMissingField
      (lookupK p.name (matchParams (l1 ++ p :: l2) f0).errors) = true := by
    have hf : lookupK p.name (phase1 (l1 ++ p :: l2) f0).fields = none := by
      rw [hphase]; exact h4.1
    have he : optIsMissingField (lookupK p.name (phase1 (l1 ++ p :: l2) f0).errors)
        = true := by
      rw [hphase]; exact h4.2
    unfold matchParams
    rw [addExtras_errors_no_field _ hf]
    exact he
  cases hfin : lookupK p.name (matchParams (l1 ++ p :: l2) f0).errors with
  | none =>
    rw [hfin] at h5
    simp [optIsMissingField] at h5
  | some e =>
    rw [hfin] at h5
    simp only [optIsMissingField] at h5
    exact ⟨e, rfl, h5⟩

/-- Concrete instance of C5: a single parameter against an empty field
map yields its missing-field error. -/
theorem c5_missing_field_witness :
    ∃ e, lookupK "a" (matchParams
      [{ name := "a", ptype := "string", required := true, description := "d" }] []).errors
      = some e ∧ e.isMissingField = true :=
  c5_missing_field
    [{ name := "a", ptype := "string", required := true, description := "d" }] []
    { name := "a", ptype := "string", required := true, description := "d" }
    (by simp) rfl

/-- Claim C6: every field left unconsumed after the parameter pass yields
the extra-field error under its serialized name (field-map keys are
unique, so exactly one entry). -/
theorem c6_extra_field (ps : List ParamSpec) (f0 : Fields) (k : String) (fi : FieldInfo)
    (hnd : (f0.map Prod.fst).Nodup)
    (hrem : (k, fi) ∈ (phase1 ps f0).fields) :
    lookupK k (matchParams ps f0).errors = some VError.extraField := by
  have hnd2 : ((phase1 ps f0).fields.map Prod.fst).Nodup := by
    have h0 : ((({ fields := f0, errors := [] } : MatchState)).fields.map Prod.fst).Nodup := hnd
    exact keys_nodup_foldl_fields ps _ h0
  exact addExtras_mem _ hnd2 hrem

/-- Concrete instance of C6: a field never referenced by any parameter is
reported as extra. -/
theorem c6_extra_field_witness :
    lookupK "x" (matchParams []
      [("x", { typeSignature := "string", omitEmpty := false, doc := "" })]).errors
      = some VError.extraField :=
  c6_extra_field [] [("x", { typeSignature := "string", omitEmpty := false, doc := "" })]
    "x" { typeSignature := "string", omitEmpty := false, doc := "" }
    (by simp) (by simp [phase1])

/-- Claim C7, counterexample: a required short parameter matched to a
field with a wrong signature does not always get the type mismatch — when
the field carries the omitempty marker, the optionality error is recorded
and the type check is skipped. -/
theorem c7_counterexample :
    lookupK "size" (matchParams
      [{ name := "size", ptype := "short", required := true, description := "d" }]
      [("size", { typeSignature := "int32", omitEmpty := true, doc := "d" })]).errors
      = some (VError.wrongOmitEmpty "size" true)
    ∧ VError.wrongOmitEmpty "size" true ≠ VError.typeMismatch "int16" "int32" :=
  ⟨rfl, by decide⟩

/-- Claim C7, amended: for category `short` only the signature `int16`
passes the type switch, and a required short parameter matched to a
non-omitempty field with any other signature yields the type mismatch
expecting `int16` with the field's actual signature. -/
theorem c7_short (ps1 ps2 : List ParamSpec) (p : ParamSpec) (f0 : Fields) (f : FieldInfo)
    (hmatch : lookupK p.name (phase1 ps1 f0).fields = some f)
    (hshort : p.ptype = "short") (hreq : p.required = true)
    (homit : f.omitEmpty = false) (hsig : f.typeSignature ≠ "int16")
    (hlater : ∀ q ∈ ps2, q.name ≠ p.name) :
    (∀ sig, expectedFor "short" sig = "" ↔ sig = "int16") ∧
    lookupK p.name (matchParams (ps1 ++ p :: ps2) f0).errors
      = some (VError.typeMismatch "int16" f.typeSignature) := by
  constructor
  · intro sig
    by_cases hs : sig = "int16" <;> simp [expectedFor, hs]
  · have hexp : expectedFor p.ptype f.typeSignature = "int16" := by
      rw [hshort]; simp [expectedFor, hsig]
    refine matchParams_split ps1 ps2 p f0 _ ?_ hlater
    rw [processParam_matched _ p f hmatch]
    have h2 := matchedErrors_self_mismatch (phase1 ps1 f0).errors p f
      (by rw [hreq, homit]; simp) (by rw [hshort]; rfl) (by rw [hexp]; simp)
    rw [hexp] at h2
    exact h2

/-- Concrete instance of the amended C7: `int64` against a required short
parameter on a non-omitempty field yields the type mismatch. -/
theorem c7_short_witness :
    lookupK "count" (matchParams
      [{ name := "count", ptype := "short", required := true, description := "d" }]
      [("count", { typeSignature := "int64", omitEmpty := false, doc := "d" })]).errors
      = some (VError.typeMismatch "int16" "int64") := by
  have h := c7_short [] []
    { name := "count", ptype := "short", required := true, description := "d" }
    [("count", { typeSignature := "int64", omitEmpty := false, doc := "d" })]
    { typeSignature := "int64", omitEmpty := false, doc := "d" }
    rfl rfl rfl rfl (by decide) (by simp)
  simpa using h.2

/-- Claim C9: the match computation is a pure function of the operation
parameters and the entity field map — two runs on equal immutable inputs
yield equal error mappings, with no hidden state. -/
theorem c9_deterministic (ps1 ps2 : List ParamSpec) (f1 f2 : Fields)
    (hps : ps1 = ps2) (hf : f1 = f2) :
    (matchParams ps1 f1).errors = (matchParams ps2 f2).errors := by
  rw [hps, hf]

/-- Concrete instance of C9: two runs on the same inputs agree. -/
theorem c9_deterministic_witness :
    (matchParams [{ name := "a", ptype := "string", required := true, description := "d" }]
        [("a", { typeSignature := "string", omitEmpty := false, doc := "d" })]).errors
      = (matchParams [{ name := "a", ptype := "string", required := true, description := "d" }]
        [("a", { typeSignature := "string", omitEmpty := false, doc := "d" })]).errors :=
  c9_deterministic _ _ _ _ rfl rfl

/-- Claim C8: with no command selected the reporter exits 0 regardless of
findings; with a selected command present in the registry it exits with
the number of distinct field names holding errors (the error map from a
match run has pairwise distinct keys, so its length is that count); with
a selected command absent from the registry it reports not-found and
exits 1. -/
theorem c8_exit_codes (cmd : String) (cmds : List (String × CommandR)) (c : CommandR)
    (ps : List ParamSpec) (f0 : Fields) :
    (cmd = "" → exitCode (reporter cmd cmds) = 0) ∧
    (cmd ≠ "" → lookupK (lowerStr cmd) cmds = none →
      reporter cmd cmds = Outcome.notFound ∧ exitCode (reporter cmd cmds) = 1) ∧
    (cmd ≠ "" → lookupK (lowerStr cmd) cmds = some c →
      c.errors = some (matchParams ps f0).errors →
      exitCode (reporter cmd cmds)
        = (((matchParams ps f0).errors.map Prod.fst).dedup).length) := by
  refine ⟨?_, ?_, ?_⟩
  · intro h
    simp [reporter, h, exitCode]
  · intro h1 h2
    constructor <;> simp [reporter, h1, h2, exitCode]
  · intro h1 h2 h3
    have hdedup : ((matchParams ps f0).errors.map Prod.fst).dedup
        = (matchParams ps f0).errors.map Prod.fst :=
      List.dedup_eq_self.mpr (matchParams_keys_nodup ps f0)
    simp [reporter, h1, h2, exitCode, errCount, h3, hdedup]

/-- Concrete instances of the three reporter paths of C8. -/
theorem c8_exit_codes_witness :
    exitCode (reporter "" []) = 0 ∧
    (reporter "zz" [] = Outcome.notFound ∧ exitCode (reporter "zz" []) = 1) ∧
    exitCode (reporter "x"
        [("x", ⟨"X", [], some (matchParams [⟨"a", "string", true, "d"⟩] []).errors⟩)])
      = (((matchParams [(⟨"a", "string", true, "d"⟩ : ParamSpec)]
          []).errors.map Prod.fst).dedup).length := by
  refine ⟨?_, ?_, ?_⟩
  · exact (c8_exit_codes "" [] ⟨"", [], none⟩ [] []).1 rfl
  · exact (c8_exit_codes "zz" [] ⟨"", [], none⟩ [] []).2.1 (by decide) rfl
  · exact (c8_exit_codes "x"
      [("x", ⟨"X", [], some (matchParams [⟨"a", "string", true, "d"⟩] []).errors⟩)]
      ⟨"X", [], some (matchParams [⟨"a", "string", true, "d"⟩] []).errors⟩
      [⟨"a", "string", true, "d"⟩] []).2.2 (by decide) rfl rfl

/-- Claim C10: in detail mode, when the selected name is a registry entry
but no specification operation matches it, the run takes the detail path
with a zero error count — exit status 0 — and not the not-found path. -/
theorem c10_no_spec_match (cmd : String) (apis : List APIEntry)
    (cmds : List (String × CommandR)) (c : CommandR)
    (hcmd : cmd ≠ "")
    (hfound : lookupK (lowerStr cmd) cmds = some c)
    (hinit : c.errors = none)
    (hnomatch : ∀ a ∈ apis, lowerStr a.name ≠ lowerStr cmd) :
    run cmd apis cmds = Outcome.detailExit 0 ∧
      exitCode (run cmd apis cmds) = 0 ∧ run cmd apis cmds ≠ Outcome.notFound := by
  have h1 : lookupK (lowerStr cmd) (applyAPIs apis cmds) = some c := by
    rw [lookupK_applyAPIs apis cmds hnomatch]
    exact hfound
  have h2 : run cmd apis cmds = Outcome.detailExit 0 := by
    simp [run, reporter, hcmd, h1, errCount, hinit]
  exact ⟨h2, by rw [h2]; rfl, by rw [h2]; simp⟩

/-- Concrete instance of C10: entity `x` exists, the only operation is
named `y`, so the errors map is never initialised and the run exits 0
through the detail path. -/
theorem c10_no_spec_match_witness :
    run "x" [{ name := "y", isAsync := false, params := [], response := [] }]
      [("x", { displayName := "X", fields := [], errors := none })]
      = Outcome.detailExit 0 :=
  (c10_no_spec_match "x" [{ name := "y", isAsync := false, params := [], response := [] }]
    [("x", { displayName := "X", fields := [], errors := none })]
    { displayName := "X", fields := [], errors := none }
    (by decide) rfl rfl
    (by intro a ha; simp only [List.mem_singleton] at ha; rw [ha]; decide)).1

end ApiCheck
